import Mathlib

/-!
Verification of the deployment-orchestrator core of the app_manager
repository.  The JavaScript orchestrator (Redis back-end) is embedded
shallowly: the Redis state is a `Store` record of association lists and
sets, socket emissions become explicit `Msg` values, and every handler
becomes a pure function from the old store (plus the event payload and
the current clock) to the new store and the emitted messages.

Conventions taken from the source:
  * statuses are the literal strings the code compares against
    (`"active"`, `"pending"`, ...);
  * timestamps are integers (milliseconds, `Date.now()`);
  * CPU / memory percentages are rationals;
  * `JS falsiness` of a possibly-absent timestamp (`!d.lastScaleUp`)
    is modelled on `Option ℤ`: absent or equal to `0`;
  * a worker that has never sent a `workerStatus` has no `currentLoad`
    (the JS object lacks the field), modelled as `Option Load`.
-/

/-- Load report of a worker (`statusUpdate.load`). -/
structure Load where
  cpuUsage : ℚ
  memoryUsage : ℚ
  runningContainers : ℕ
  deriving Repr, DecidableEq

/-- Per-replica metrics (`replica.metrics`). -/
structure Metrics where
  cpuUsage : ℚ
  memoryUsage : ℚ
  deriving Repr, DecidableEq

/-- A worker record as stored under `worker:{id}`. -/
structure Worker where
  id : ℕ
  hostname : String
  socketId : String
  status : String
  lastHeartbeat : ℤ
  currentLoad : Option Load
  deriving Repr, DecidableEq

/-- An assignment inside `deployment.workers`; the source field
`replicaId` holds the per-deployment replica number. -/
structure Assignment where
  workerId : ℕ
  replicaId : ℕ
  status : String
  deriving Repr, DecidableEq

/-- A deployment record as stored under `deployment:{id}`. -/
structure Deployment where
  id : ℕ
  githubRepo : String
  userName : String
  minReplicas : ℕ
  maxReplicas : ℕ
  status : String
  workers : List Assignment
  lastScaleUp : Option ℤ
  lastScaleDown : Option ℤ
  createdAt : ℤ
  deriving Repr, DecidableEq

/-- A replica record as stored under `replica:{id}`; `id` is the opaque
counter value, `replicaNumber` the per-deployment number.  `createdAt`
is set at deployment creation but not by `scaleUp`. -/
structure Replica where
  id : ℕ
  deploymentId : ℕ
  status : String
  replicaNumber : ℕ
  metrics : Option Metrics
  createdAt : Option ℤ
  deriving Repr, DecidableEq

/-- Association list keyed by numeric ids, standing for the Redis
string keyspace `worker:{id}` / `deployment:{id}` / `replica:{id}`. -/
abbrev KV (α : Type) := List (ℕ × α)

def kvGet {α : Type} (m : KV α) (k : ℕ) : Option α :=
  (m.find? (fun p => p.1 == k)).map (fun p => p.2)

def kvSet {α : Type} (m : KV α) (k : ℕ) (v : α) : KV α :=
  (k, v) :: m.filter (fun p => p.1 != k)

def kvDel {α : Type} (m : KV α) (k : ℕ) : KV α :=
  m.filter (fun p => p.1 != k)

/-- Redis `SADD` on an integer set. -/
def sadd (s : List ℕ) (k : ℕ) : List ℕ :=
  if k ∈ s then s else s ++ [k]

/-- Redis `SREM` on an integer set. -/
def srem (s : List ℕ) (k : ℕ) : List ℕ :=
  s.filter (fun x => x != k)

/-- The whole Redis keyspace used by the orchestrator. -/
structure Store where
  workers : KV Worker
  deployments : KV Deployment
  replicas : KV Replica
  depReplicas : KV (List ℕ)
  workerSet : List ℕ
  deploymentSet : List ℕ
  counterWorker : ℕ
  counterDeployment : ℕ
  counterReplica : ℕ
  deriving Repr, DecidableEq

def emptyStore : Store :=
  ⟨[], [], [], [], [], [], 0, 0, 0⟩

def Store.setWorker (st : Store) (k : ℕ) (w : Worker) : Store :=
  { st with workers := kvSet st.workers k w }

def Store.setDeployment (st : Store) (k : ℕ) (d : Deployment) : Store :=
  { st with deployments := kvSet st.deployments k d }

def Store.setReplica (st : Store) (k : ℕ) (r : Replica) : Store :=
  { st with replicas := kvSet st.replicas k r }

/-- Messages emitted through socket.io, tagged by the event name used
in the source. -/
inductive Payload where
  | deploymentTask (deploymentId replicaId : ℕ)
      (githubRepo : String) (deploymentTime : String)
  | deployRepository (deploymentDir : String) (repoUrl : String)
      (replicaId deploymentId : ℕ) (deploymentTime : String)
  | removeReplica (deploymentId replicaId : ℕ)
  | workerRegistered (id : ℕ)
  deriving Repr, DecidableEq

/-- A message addressed to one socket (`io.to(socketId).emit(...)`). -/
structure Msg where
  dest : String
  payload : Payload
  deriving Repr, DecidableEq

/-! ### Scaling settings (constructor of `DeploymentOrchestrator`) -/

def cpuThreshold : ℚ := 70
def scaleUpCooldown : ℤ := 300000
def scaleDownCooldown : ℤ := 600000

/-! ### The scaling decision (`checkAndScale`, part_003 lines 84-122) -/

/-- Average load `totalCpuLoad / activeReplicas.length` with the
`replica.metrics?.cpuUsage || 0` reading of the source and `0` default
on an empty active set. -/
def avgCpuLoad (rs : List Replica) : ℚ :=
  let activeReplicas := rs.filter (fun r => r.status == "active")
  let totalCpuLoad :=
    (activeReplicas.map (fun r =>
      match r.metrics with
      | some m => m.cpuUsage
      | none => 0)).sum
  if 0 < activeReplicas.length then
    totalCpuLoad / (activeReplicas.length : ℚ)
  else 0

/-- The JS guard `(!d.lastScaleUp || now - d.lastScaleUp > cooldown)`:
an absent timestamp is falsy, and so is the number `0`. -/
def cooldownOk (last : Option ℤ) (now cooldown : ℤ) : Bool :=
  match last with
  | none => true
  | some t => t == 0 || decide (cooldown < now - t)

inductive ScaleAction where
  | up
  | down
  | hold
  deriving Repr, DecidableEq

/-- The `if / else if` decision of `checkAndScale`, taking the parsed
replica list of the deployment and the current clock. -/
def checkAndScaleDecision (d : Deployment) (rs : List Replica) (now : ℤ) :
    ScaleAction :=
  let avgCpu := avgCpuLoad rs
  if cpuThreshold < avgCpu ∧ rs.length < d.maxReplicas ∧
      cooldownOk d.lastScaleUp now scaleUpCooldown = true then
    ScaleAction.up
  else if avgCpu < cpuThreshold / 2 ∧ d.minReplicas < rs.length ∧
      cooldownOk d.lastScaleDown now scaleDownCooldown = true then
    ScaleAction.down
  else
    ScaleAction.hold

/-! ### Placement (`findAvailableWorker`, part_003 lines 124-136) -/

/-- The workers read back from the `workers` set; a set member whose
`worker:{id}` key is missing yields `null` and is skipped. -/
def storedWorkers (st : Store) : List Worker :=
  st.workerSet.filterMap (fun k => kvGet st.workers k)

/-- A JS runtime error escaping an expression of the source. -/
inductive JsError where
  | typeError
  deriving Repr, DecidableEq

/-- Placement test `worker.status === "active" &&
worker.currentLoad.cpuUsage < 80` as the source evaluates it.  The JS
`&&` short-circuits, so an inactive worker evaluates to `false`; but an
`active` worker that never sent a `workerStatus` has no `currentLoad`,
and reading `.cpuUsage` of `undefined` raises a `TypeError`. -/
def availableFilter (w : Worker) : Except JsError Bool :=
  if w.status == "active" then
    match w.currentLoad with
    | some l => Except.ok (decide (l.cpuUsage < 80))
    | none => Except.error JsError.typeError
  else Except.ok false

/-- The placement filter as the claims word it (status `active` and
reported `cpuUsage < 80`); used only to state claims.  It agrees with
`availableFilter` on every worker that has reported a load; on an
active worker without one the source raises instead. -/
def placementPred (w : Worker) : Bool :=
  w.status == "active" &&
    ((w.currentLoad.map (fun l => decide (l.cpuUsage < 80))).getD false)

/-- The `Array.filter` of `deployRepository`: callbacks run in order
and the first raising callback aborts the whole call. -/
def filterAvailable : List Worker → Except JsError (List Worker)
  | [] => Except.ok []
  | w :: ws =>
    match availableFilter w with
    | Except.error e => Except.error e
    | Except.ok b =>
      match filterAvailable ws with
      | Except.error e => Except.error e
      | Except.ok rest => Except.ok (if b then w :: rest else rest)

/-- The scan loop of `findAvailableWorker`: return the first worker
passing the test, or propagate the raised `TypeError`. -/
def findFirstAvailable : List Worker → Except JsError (Option Worker)
  | [] => Except.ok none
  | w :: ws =>
    match availableFilter w with
    | Except.error e => Except.error e
    | Except.ok true => Except.ok (some w)
    | Except.ok false => findFirstAvailable ws

def findAvailableWorker (st : Store) : Except JsError (Option Worker) :=
  findFirstAvailable (storedWorkers st)

/-! ### Scale up (`scaleUp`, part_003 lines 138-186) -/

/-- Source `scaleUp`: pick a worker, persist a `pending` replica under
the fresh counter id, add it to the replica set of the deployment,
stamp `lastScaleUp`, append the assignment, save the deployment and
emit a `deploymentTask` event to the socket of that worker.  When no
worker is found (`throw`) or the placement scan raises a `TypeError`,
the surrounding `catch` swallows the error before any write, leaving
everything unchanged. -/
def scaleUp (st : Store) (d : Deployment) (now : ℤ) (nowIso : String) :
    Store × List Msg :=
  match findAvailableWorker st with
  | Except.error _ => (st, [])
  | Except.ok none => (st, [])
  | Except.ok (some w) =>
    let replicaId := st.counterReplica + 1
    let replica : Replica :=
      { id := replicaId, deploymentId := d.id, status := "pending",
        replicaNumber := d.workers.length + 1, metrics := none,
        createdAt := none }
    let st1 := { st with counterReplica := replicaId }
    let st2 := st1.setReplica replicaId replica
    let newSet := sadd ((kvGet st2.depReplicas d.id).getD []) replicaId
    let st3 := { st2 with depReplicas := kvSet st2.depReplicas d.id newSet }
    let d' := { d with
      lastScaleUp := some now,
      workers := d.workers ++
        [⟨w.id, replica.replicaNumber, "pending"⟩] }
    let st4 := st3.setDeployment d.id d'
    (st4, [⟨w.socketId,
      Payload.deploymentTask d.id replica.replicaNumber d.githubRepo nowIso⟩])

/-! ### Scale down (`scaleDown`, part_003 lines 188-220) -/

/-- Source `scaleDown`: take the tail assignment, emit `removeReplica` to its
worker, stamp `lastScaleDown`, pop the assignment, save, then
`SREM`/`DEL` using `lastWorker.replicaId` — the replica *number*, used
as if it were the opaque replica id. -/
def scaleDown (st : Store) (d : Deployment) (now : ℤ) :
    Store × List Msg :=
  match d.workers.getLast? with
  | none => (st, [])
  | some lastWorker =>
    match kvGet st.workers lastWorker.workerId with
    | none => (st, [])
    | some w =>
      let msg : Msg :=
        ⟨w.socketId, Payload.removeReplica d.id lastWorker.replicaId⟩
      let d' := { d with
        lastScaleDown := some now, workers := d.workers.dropLast }
      let st1 := st.setDeployment d.id d'
      let shrunk := srem ((kvGet st1.depReplicas d.id).getD []) lastWorker.replicaId
      let st2 := { st1 with depReplicas := kvSet st1.depReplicas d.id shrunk }
      let st3 := { st2 with replicas := kvDel st2.replicas lastWorker.replicaId }
      (st3, [msg])

/-- Source `checkAndScale`: read the replica set, parse each entry and act on
the decision.  A `null` among the parsed replicas makes the JS
`filter` raise a `TypeError`, which the surrounding `catch` turns into
no action. -/
def checkAndScale (st : Store) (d : Deployment) (now : ℤ) (nowIso : String) :
    Store × List Msg :=
  let raw := ((kvGet st.depReplicas d.id).getD []).map
    (fun k => kvGet st.replicas k)
  if raw.any (fun o => o.isNone) then (st, [])
  else
    let rs := raw.reduceOption
    match checkAndScaleDecision d rs now with
    | ScaleAction.up => scaleUp st d now nowIso
    | ScaleAction.down => scaleDown st d now
    | ScaleAction.hold => (st, [])

/-! ### Worker registration and disconnect (part_003 lines 249-273, 325-335) -/

/-- The `registerWorker` handler of the Redis orchestrator: allocate a
fresh id and persist the record.  No purge of an earlier record with
the same hostname happens here. -/
def registerWorker (st : Store) (socketId hostname : String) (now : ℤ) :
    Store × List Msg :=
  let workerId := st.counterWorker + 1
  let w : Worker :=
    { id := workerId, hostname := hostname, socketId := socketId,
      status := "active", lastHeartbeat := now, currentLoad := none }
  let st1 := { st with counterWorker := workerId }
  let st2 := st1.setWorker workerId w
  let st3 := { st2 with workerSet := sadd st2.workerSet workerId }
  (st3, [⟨socketId, Payload.workerRegistered workerId⟩])

/-- The `disconnect` handler: `SREM` from the worker set and delete the
record of the id that was attached to the socket at registration. -/
def disconnectWorker (st : Store) (workerId : ℕ) : Store :=
  { st with workerSet := srem st.workerSet workerId,
            workers := kvDel st.workers workerId }

/-- Register/disconnect event alphabet of the worker registry. -/
inductive WEvent where
  | reg (socketId hostname : String) (now : ℤ)
  | disc (workerId : ℕ)
  deriving Repr, DecidableEq

def applyWEvent (st : Store) : WEvent → Store
  | WEvent.reg s h n => (registerWorker st s h n).1
  | WEvent.disc k => disconnectWorker st k

def runWEvents (st : Store) (es : List WEvent) : Store :=
  es.foldl applyWEvent st

/-! ### Deployment status events (part_003 lines 295-323) -/

/-- The `deploymentStatus` handler: find the assignment whose
`replicaId` (replica number) matches the wire `replicaId` and update
its status; then read the key `replica:{statusUpdate.replicaId}` — the
wire replica number used as an opaque replica id — and overwrite that
status and metrics of that record. -/
def deploymentStatusHandler (st : Store) (deploymentId replicaId : ℕ)
    (status : String) (metrics : Option Metrics) : Store :=
  match kvGet st.deployments deploymentId with
  | none => st
  | some d =>
    let st1 :=
      match d.workers.findIdx? (fun w => w.replicaId == replicaId) with
      | none => st
      | some i =>
        match d.workers[i]? with
        | none => st
        | some a =>
          st.setDeployment deploymentId
            { d with workers := d.workers.set i { a with status := status } }
    match kvGet st1.replicas replicaId with
    | none => st1
    | some r =>
      st1.setReplica replicaId { r with status := status, metrics := metrics }

/-! ### Deployment creation (part_003 lines 358-471) -/

/-- What `deployRepository` consumes from the code-host answer. -/
structure RepoInfo where
  clone_url : String
  deriving Repr, DecidableEq

structure DeployRequest where
  githubRepo : String
  userName : String
  minReplicas : Option ℕ
  maxReplicas : Option ℕ
  deriving Repr, DecidableEq

inductive DeployErr where
  | invalidRepository
  | insufficientWorkers (required available : ℕ)
  | typeError
  deriving Repr, DecidableEq

instance {ε α : Type} [DecidableEq ε] [DecidableEq α] :
    DecidableEq (Except ε α) := fun x y =>
  match x, y with
  | Except.ok a, Except.ok b =>
    if h : a = b then isTrue (by rw [h]) else isFalse (by simp [h])
  | Except.ok _, Except.error _ => isFalse (by simp)
  | Except.error _, Except.ok _ => isFalse (by simp)
  | Except.error e, Except.error f =>
    if h : e = f then isTrue (by rw [h]) else isFalse (by simp [h])

/-- Outcome of the deploy pipeline: the store as left behind (writes
before a raise persist), the messages already emitted, and either the
returned deployment or the surfaced error. -/
structure DeployOutcome where
  store : Store
  msgs : List Msg
  result : Except DeployErr Deployment
  deriving Repr, DecidableEq

def deploymentPath : String := "./deployments"

/-- Directory string deploymentPath + "/" + deployment id + "_" + replica number. -/
def deploymentDirFor (deploymentId replicaId : ℕ) : String :=
  deploymentPath ++ "/" ++ toString deploymentId ++ "_" ++ toString replicaId

/-- The `deployRepository` message sent to the worker of one assignment. -/
def dispatchMsg (d : Deployment) (repo : RepoInfo) (nowIso : String)
    (a : Assignment) (w : Worker) : Msg :=
  ⟨w.socketId,
    Payload.deployRepository (deploymentDirFor d.id a.replicaId)
      repo.clone_url a.replicaId d.id nowIso⟩

/-- The dispatch loop of `distributeToWorkers`.  A missing worker
record is skipped (`continue`); for a present record the code calls
`io.to(worker.socketId).emit(...)`, and a socket.io room emit never
raises — a gone socket receives nothing, silently.  The loop therefore
cannot fail: the `catch` of the source is reachable only through
state-store failures, which this embedding does not model. -/
def distLoop (st : Store) (d : Deployment) (repo : RepoInfo)
    (nowIso : String) : List Assignment → List Msg → List Msg
  | [], acc => acc
  | a :: rest, acc =>
    match kvGet st.workers a.workerId with
    | none => distLoop st d repo nowIso rest acc
    | some w => distLoop st d repo nowIso rest (acc ++ [dispatchMsg d repo nowIso a w])

/-- Source `distributeToWorkers`: emit to every assignment whose worker
record exists, then save the deployment as `active` and return it.
Since the emits cannot raise, the `status = "failed"` branch of the
source never runs on account of a dispatch. -/
def distributeToWorkers (st : Store) (d : Deployment) (repo : RepoInfo)
    (nowIso : String) : DeployOutcome :=
  let msgs := distLoop st d repo nowIso d.workers []
  let d' := { d with status := "active" }
  ⟨st.setDeployment d.id d', msgs, Except.ok d'⟩

/-- One round of the initial-replica loop of `deployRepository`. -/
def createInitialReplica (depId : ℕ) (now : ℤ) (st : Store) (i : ℕ) : Store :=
  let replicaId := st.counterReplica + 1
  let replica : Replica :=
    { id := replicaId, deploymentId := depId, status := "pending",
      replicaNumber := i + 1, metrics := none, createdAt := some now }
  let st1 := { st with counterReplica := replicaId }
  let st2 := st1.setReplica replicaId replica
  let grown := sadd ((kvGet st2.depReplicas depId).getD []) replicaId
  { st2 with depReplicas := kvSet st2.depReplicas depId grown }

/-- Body of `deployRepository` after the destructuring defaults have been
resolved (`minReplicas = 1`, `maxReplicas = 3`).  A `TypeError` raised
by the placement filter propagates out of the call (there is no
`try/catch` inside `deployRepository`), still before any write. -/
def deployResolved (st : Store) (githubRepo userName : String)
    (minReplicas maxReplicas : ℕ) (repoInfo : Option RepoInfo)
    (now : ℤ) (nowIso : String) : DeployOutcome :=
  match repoInfo with
  | none => ⟨st, [], Except.error DeployErr.invalidRepository⟩
  | some repo =>
    match filterAvailable (storedWorkers st) with
    | Except.error _ => ⟨st, [], Except.error DeployErr.typeError⟩
    | Except.ok activeWorkers =>
    if activeWorkers.length < minReplicas then
      ⟨st, [], Except.error
        (DeployErr.insufficientWorkers minReplicas activeWorkers.length)⟩
    else
      let deploymentId := st.counterDeployment + 1
      let d : Deployment :=
        { id := deploymentId, githubRepo := githubRepo, userName := userName,
          minReplicas := minReplicas, maxReplicas := maxReplicas,
          status := "deploying",
          workers := (activeWorkers.take minReplicas).mapIdx
            (fun i w => ⟨w.id, i + 1, "pending"⟩),
          lastScaleUp := none, lastScaleDown := none, createdAt := now }
      let st1 := { st with counterDeployment := deploymentId }
      let st2 := st1.setDeployment deploymentId d
      let st3 := { st2 with deploymentSet := sadd st2.deploymentSet deploymentId }
      let st4 := (List.range minReplicas).foldl
        (createInitialReplica deploymentId now) st3
      distributeToWorkers st4 d repo nowIso

/-- Source `deployRepository` (part_003 lines 358-432): the destructuring
`{ githubRepo, userName, minReplicas = 1, maxReplicas = 3 }` resolves
absent fields to the defaults, then the resolved pipeline runs.  The
outcome of `validateGithubRepo` (an external HTTP call) is passed in as
`repoInfo`. -/
def deployRepository (st : Store) (req : DeployRequest)
    (repoInfo : Option RepoInfo) (now : ℤ) (nowIso : String) : DeployOutcome :=
  deployResolved st req.githubRepo req.userName
    (req.minReplicas.getD 1) (req.maxReplicas.getD 3) repoInfo now nowIso

/-!
### Repository-reference normalization

`validateGithubRepo` (part_003 lines 341-356) and `deployProject`
(worker agent) both normalize a user-supplied reference with the same
three `replace` calls, and the worker re-forms the clone URL as
`https://github.com/` + normalized + `.git`.  Modelled on `List Char`.
-/

/-- Predicate `hasPre p s`: decides whether `p` is an initial segment of `s`. -/
def hasPre : List Char → List Char → Bool
  | [], _ => true
  | _ :: _, [] => false
  | a :: as, b :: bs => a == b && hasPre as bs

def ghUrl : List Char := "https://github.com/".toList

def dotGit : List Char := ".git".toList

/-- The greedy regex `^(https:\/\/github\.com\/)+`: peel copies of the
GitHub URL head while the string still starts with one. -/
def stripGh (s : List Char) : List Char :=
  if h : hasPre ghUrl s = true then
    stripGh (s.drop ghUrl.length)
  else s
termination_by s.length
decreasing_by
  have H : ∀ (p t : List Char), hasPre p t = true → p.length ≤ t.length := by
    intro p
    induction p with
    | nil => intro t _; simp
    | cons a as ih =>
      intro t ht
      cases t with
      | nil => simp [hasPre] at ht
      | cons b bs =>
        simp only [hasPre, Bool.and_eq_true] at ht
        have := ih bs ht.2
        simp only [List.length_cons]
        omega
  have hlen := H ghUrl s h
  have hpos : 0 < ghUrl.length := by decide
  simp only [List.length_drop]
  omega

/-- The regex `\.git$`: remove one trailing `.git` when present. -/
def stripGit (s : List Char) : List Char :=
  if hasPre dotGit.reverse s.reverse then
    s.take (s.length - dotGit.length)
  else s

/-- The final `replace(/^https:\/\/github\.com\//, '')`: remove at
most one leading copy. -/
def stripGhOnce (s : List Char) : List Char :=
  if hasPre ghUrl s then s.drop ghUrl.length else s

/-- The normalized `owner/name` remainder. -/
def normalizeRepo (s : List Char) : List Char :=
  stripGhOnce (stripGit (stripGh s))

/-- The canonical clone URL the worker agent rebuilds:
`https://github.com/` + normalized + `.git`. -/
def canonicalize (s : List Char) : List Char :=
  ghUrl ++ normalizeRepo s ++ dotGit

/-! ### Fixtures: concrete states used by the counterexample and
witness theorems -/

/-- The `deployRepository` messages emitted for the assignments whose
worker records exist (whether or not anyone is listening on the
destination socket). -/
def emittedMsgs (st : Store) (d : Deployment) (repo : RepoInfo)
    (nowIso : String) (l : List Assignment) : List Msg :=
  l.filterMap (fun a => (kvGet st.workers a.workerId).map (dispatchMsg d repo nowIso a))

/-- An active worker that has never sent a `workerStatus`: it has no
`currentLoad`, so the placement test raises on it. -/
def wNoLoad : Worker := ⟨3, "host-c", "sock3", "active", 0, none⟩

/-- Store holding only the active, never-reporting worker. -/
def stNoLoad : Store := ⟨[(3, wNoLoad)], [], [], [], [3], [], 3, 0, 0⟩

/-- An idle worker on socket `sock1`. -/
def w1 : Worker := ⟨1, "host-a", "sock1", "active", 0, some ⟨10, 20, 1⟩⟩

/-- A worker whose CPU is at 95%, above the placement cutoff. -/
def wBusy : Worker := ⟨2, "host-b", "sock2", "active", 0, some ⟨95, 20, 3⟩⟩

/-- Store holding only the overloaded worker. -/
def stBusy : Store := ⟨[(2, wBusy)], [], [], [], [2], [], 2, 0, 0⟩

/-- An active deployment with a single assignment on worker 1. -/
def dOne : Deployment :=
  ⟨1, "acme/app", "kaz", 1, 4, "active", [⟨1, 1, "active"⟩], none, none, 0⟩

/-- Replica fixtures: opaque ids 5 and 6 belong to deployment 1 (replica
numbers 1 and 2), opaque id 2 belongs to deployment 9 (number 7). -/
def rep5 : Replica := ⟨5, 1, "active", 1, some ⟨10, 10⟩, some 0⟩

def rep6 : Replica := ⟨6, 1, "active", 2, some ⟨10, 10⟩, some 0⟩

def rep2 : Replica := ⟨2, 9, "active", 7, some ⟨10, 10⟩, some 0⟩

/-- Store for the scale-up fixture: worker 1, deployment 1 with one
assignment, replica counter at 7. -/
def stUp : Store :=
  ⟨[(1, w1)], [(1, dOne)], [(5, rep5)], [(1, [5])], [1], [1], 1, 1, 7⟩

/-- A deployment holding two assignments, for the scale-down fixture. -/
def dTwo : Deployment :=
  ⟨1, "acme/app", "kaz", 1, 3, "active",
    [⟨1, 1, "active"⟩, ⟨1, 2, "active"⟩], none, none, 0⟩

/-- Store for the scale-down fixture: deployment 1 owns opaque replicas
5 and 6, deployment 9 owns opaque replica 2. -/
def stDown : Store :=
  ⟨[(1, w1)], [(1, dTwo)], [(5, rep5), (6, rep6), (2, rep2)],
    [(1, [5, 6]), (9, [2])], [1], [1, 9], 1, 9, 6⟩

/-- Deployment and replicas for the status-event fixture: deployment 1
owns opaque replica 5 (number 1); opaque replica 1 belongs to
deployment 2 (number 3). -/
def dPend : Deployment :=
  ⟨1, "acme/app", "kaz", 1, 3, "active", [⟨1, 1, "pending"⟩], none, none, 0⟩

def rep5p : Replica := ⟨5, 1, "pending", 1, none, some 0⟩

def rep1p : Replica := ⟨1, 2, "pending", 3, none, some 0⟩

def stStatus : Store :=
  ⟨[(1, w1)], [(1, dPend)], [(5, rep5p), (1, rep1p)],
    [(1, [5]), (2, [1])], [1], [1, 2], 1, 2, 5⟩

def repoA : RepoInfo := ⟨"https://github.com/acme/app.git"⟩

/-- Two active replicas reporting 85% CPU, used to exercise a scale-up
decision. -/
def repHot1 : Replica := ⟨5, 1, "active", 1, some ⟨85, 10⟩, some 0⟩

def repHot2 : Replica := ⟨6, 1, "active", 2, some ⟨85, 10⟩, some 0⟩

/-!
## Theorems

Helper lemmas first, then one theorem per claim (with witnesses for
theorems that carry hypotheses).
-/

theorem hasPre_iff (p s : List Char) :
    hasPre p s = true ↔ ∃ t, s = p ++ t := by
  induction p generalizing s with
  | nil => simp [hasPre]
  | cons a as ih =>
    cases s with
    | nil =>
      simp only [hasPre, List.cons_append, Bool.false_eq_true, false_iff]
      rintro ⟨t, ht⟩
      cases ht
    | cons b bs =>
      simp only [hasPre, Bool.and_eq_true, beq_iff_eq, List.cons_append,
        List.cons.injEq, ih]
      constructor
      · rintro ⟨rfl, t, rfl⟩
        exact ⟨t, rfl, rfl⟩
      · rintro ⟨t, rfl, rfl⟩
        exact ⟨rfl, t, rfl⟩

theorem hasPre_append (p t : List Char) : hasPre p (p ++ t) = true :=
  (hasPre_iff p (p ++ t)).2 ⟨t, rfl⟩

theorem hasPre_length {p t : List Char} (h : hasPre p t = true) :
    p.length ≤ t.length := by
  obtain ⟨r, rfl⟩ := (hasPre_iff p t).1 h
  simp

theorem hasPre_of_take {p s : List Char} {k : ℕ}
    (h : hasPre p (s.take k) = true) : hasPre p s = true := by
  obtain ⟨t, ht⟩ := (hasPre_iff p (s.take k)).1 h
  refine (hasPre_iff p s).2 ⟨t ++ s.drop k, ?_⟩
  conv_lhs => rw [← List.take_append_drop k s]
  rw [ht, List.append_assoc]

theorem ghPre_append_dotGit {A : List Char} (hA : hasPre ghUrl A = false) :
    hasPre ghUrl (A ++ dotGit) = false := by
  by_contra hcon
  rw [Bool.not_eq_false] at hcon
  obtain ⟨r, hr⟩ := (hasPre_iff _ _).1 hcon
  by_cases hk : ghUrl.length ≤ A.length
  · have hA' : hasPre ghUrl A = true := by
      refine (hasPre_iff _ _).2 ⟨A.drop ghUrl.length, ?_⟩
      have h1 : (A ++ dotGit).take ghUrl.length = ghUrl := by
        rw [hr]; exact List.take_left ..
      have h2 : (A ++ dotGit).take ghUrl.length = A.take ghUrl.length := by
        rw [List.take_append_eq_append_take]
        have hz : ghUrl.length - A.length = 0 := by omega
        rw [hz]
        simp
      conv_lhs => rw [← List.take_append_drop ghUrl.length A]
      rw [← h2, h1]
    rw [hA'] at hA
    cases hA
  · push_neg at hk
    have h19 : ghUrl.length = 19 := by decide
    have h4 : dotGit.length = 4 := by decide
    have hlen : A.length + dotGit.length = ghUrl.length + r.length := by
      have := congrArg List.length hr
      simpa using this
    have hge : 15 ≤ A.length := by omega
    have hdrop : dotGit = ghUrl.drop A.length ++ r := by
      have h1 : (A ++ dotGit).drop A.length = dotGit := List.drop_left ..
      have h2 : (ghUrl ++ r).drop A.length =
          ghUrl.drop A.length ++ r.drop (A.length - ghUrl.length) :=
        List.drop_append_eq_append_drop ..
      have hz : A.length - ghUrl.length = 0 := by omega
      rw [hr, h2, hz, List.drop_zero] at h1
      exact h1.symm
    have hcases : A.length = 15 ∨ A.length = 16 ∨ A.length = 17 ∨ A.length = 18 := by
      omega
    rcases hcases with h | h | h | h <;> rw [h] at hdrop
    · rw [show ghUrl.drop 15 = ('c' :: 'o' :: 'm' :: '/' :: []) from rfl] at hdrop
      rw [show dotGit = ('.' :: 'g' :: 'i' :: 't' :: []) from rfl] at hdrop
      simp at hdrop
    · rw [show ghUrl.drop 16 = ('o' :: 'm' :: '/' :: []) from rfl] at hdrop
      rw [show dotGit = ('.' :: 'g' :: 'i' :: 't' :: []) from rfl] at hdrop
      simp at hdrop
    · rw [show ghUrl.drop 17 = ('m' :: '/' :: []) from rfl] at hdrop
      rw [show dotGit = ('.' :: 'g' :: 'i' :: 't' :: []) from rfl] at hdrop
      simp at hdrop
    · rw [show ghUrl.drop 18 = ('/' :: []) from rfl] at hdrop
      rw [show dotGit = ('.' :: 'g' :: 'i' :: 't' :: []) from rfl] at hdrop
      simp at hdrop

theorem stripGh_no_pre (s : List Char) : hasPre ghUrl (stripGh s) = false := by
  have H : ∀ (n : ℕ) (s : List Char), s.length ≤ n →
      hasPre ghUrl (stripGh s) = false := by
    intro n
    induction n with
    | zero =>
      intro s hs
      have hnil : s = [] := List.length_eq_zero.1 (Nat.le_zero.1 hs)
      subst hnil
      rw [stripGh]
      simp [hasPre, ghUrl]
    | succ n ih =>
      intro s hs
      rw [stripGh]
      by_cases h : hasPre ghUrl s = true
      · rw [dif_pos h]
        apply ih
        have := hasPre_length h
        have h19 : ghUrl.length = 19 := by decide
        simp only [List.length_drop]
        omega
      · rw [dif_neg h]
        exact Bool.not_eq_true _ ▸ eq_false_of_ne_true h
  exact H s.length s le_rfl

theorem stripGit_no_pre {B : List Char} (hB : hasPre ghUrl B = false) :
    hasPre ghUrl (stripGit B) = false := by
  unfold stripGit
  by_cases h : hasPre dotGit.reverse B.reverse = true
  · rw [if_pos h]
    by_contra hcon
    rw [Bool.not_eq_false] at hcon
    rw [hasPre_of_take hcon] at hB
    cases hB
  · rw [if_neg h]
    exact hB

theorem stripGhOnce_no_pre {B : List Char} (hB : hasPre ghUrl B = false) :
    stripGhOnce B = B := by
  unfold stripGhOnce
  rw [if_neg]
  rw [hB]
  exact Bool.false_ne_true

theorem stripGh_gh_append {A : List Char} (hA : hasPre ghUrl A = false) :
    stripGh (ghUrl ++ (A ++ dotGit)) = A ++ dotGit := by
  rw [stripGh]
  rw [dif_pos (hasPre_append ghUrl (A ++ dotGit))]
  rw [List.drop_left]
  rw [stripGh]
  rw [dif_neg]
  rw [ghPre_append_dotGit hA]
  exact Bool.false_ne_true

theorem stripGit_append_dotGit (A : List Char) :
    stripGit (A ++ dotGit) = A := by
  unfold stripGit
  rw [if_pos]
  · have hl : (A ++ dotGit).length - dotGit.length = A.length := by
      simp
    rw [hl]
    rw [List.take_append_eq_append_take]
    simp
  · rw [List.reverse_append]
    exact hasPre_append dotGit.reverse A.reverse

theorem normalizeRepo_no_pre (s : List Char) :
    hasPre ghUrl (normalizeRepo s) = false := by
  unfold normalizeRepo
  rw [stripGhOnce_no_pre (stripGit_no_pre (stripGh_no_pre s))]
  exact stripGit_no_pre (stripGh_no_pre s)

/-- **C8.** The repository normalizer is idempotent:
`canonicalize (canonicalize x) = canonicalize x`, where `canonicalize`
strips any number of leading `https://github.com/` heads, one trailing
`.git`, and re-forms `https://github.com/{owner}/{name}.git`. -/
theorem canonicalize_idempotent (x : List Char) :
    canonicalize (canonicalize x) = canonicalize x := by
  have hA : hasPre ghUrl (normalizeRepo x) = false := normalizeRepo_no_pre x
  show ghUrl ++ normalizeRepo (canonicalize x) ++ dotGit =
    ghUrl ++ normalizeRepo x ++ dotGit
  have hmid : normalizeRepo (canonicalize x) = normalizeRepo x := by
    show stripGhOnce (stripGit (stripGh (ghUrl ++ normalizeRepo x ++ dotGit))) =
      normalizeRepo x
    rw [List.append_assoc]
    rw [stripGh_gh_append hA]
    rw [stripGit_append_dotGit]
    exact stripGhOnce_no_pre hA
  rw [hmid]

theorem cooldownOk_iff (l : Option ℤ) (now cd : ℤ) (hcd : cd < now) :
    cooldownOk l now cd = true ↔
      (l = none ∨ ∃ t, l = some t ∧ cd < now - t) := by
  cases l with
  | none => simp [cooldownOk]
  | some t =>
    constructor
    · intro h
      simp only [cooldownOk, Bool.or_eq_true, beq_iff_eq,
        decide_eq_true_eq] at h
      rcases h with rfl | h
      · exact Or.inr ⟨0, rfl, by omega⟩
      · exact Or.inr ⟨t, rfl, h⟩
    · rintro (h | ⟨t', ht', h⟩)
      · exact absurd h (by simp)
      · injection ht' with ht''
        subst ht''
        simp only [cooldownOk, Bool.or_eq_true, beq_iff_eq,
          decide_eq_true_eq]
        exact Or.inr h

/-- **C1.** For a deployment examined by a scaling tick (any wall clock
past the larger cooldown): the average CPU is the mean of
`metrics.cpuUsage` over the `active` replicas (0 on an empty set); the
tick scales up iff `avgCpu > 70`, the replica count is below
`maxReplicas`, and the scale-up cooldown has lapsed (absent stamp, or
more than 300 s ago); it scales down iff `avgCpu < 35`, the replica
count exceeds `minReplicas`, and the scale-down cooldown has lapsed
(absent stamp, or more than 600 s ago); and at most one of the two
actions fires. -/
theorem scaling_decision_iff (d : Deployment) (rs : List Replica) (now : ℤ)
    (hnow : 600000 < now) :
    (avgCpuLoad rs =
      if (rs.filter (fun r => r.status == "active")).length = 0 then 0
      else ((rs.filter (fun r => r.status == "active")).map
          (fun r => (r.metrics.map Metrics.cpuUsage).getD 0)).sum /
        ((rs.filter (fun r => r.status == "active")).length : ℚ))
    ∧ (checkAndScaleDecision d rs now = ScaleAction.up ↔
        (70 < avgCpuLoad rs ∧ rs.length < d.maxReplicas ∧
          (d.lastScaleUp = none ∨
            ∃ t, d.lastScaleUp = some t ∧ 300000 < now - t)))
    ∧ (checkAndScaleDecision d rs now = ScaleAction.down ↔
        (avgCpuLoad rs < 35 ∧ d.minReplicas < rs.length ∧
          (d.lastScaleDown = none ∨
            ∃ t, d.lastScaleDown = some t ∧ 600000 < now - t)))
    ∧ ¬(checkAndScaleDecision d rs now = ScaleAction.up ∧
        checkAndScaleDecision d rs now = ScaleAction.down) := by
  have hupcd : cooldownOk d.lastScaleUp now scaleUpCooldown = true ↔
      (d.lastScaleUp = none ∨ ∃ t, d.lastScaleUp = some t ∧ 300000 < now - t) := by
    have h1 : scaleUpCooldown < now := by
      show (300000 : ℤ) < now
      omega
    exact cooldownOk_iff _ _ _ h1
  have hdncd : cooldownOk d.lastScaleDown now scaleDownCooldown = true ↔
      (d.lastScaleDown = none ∨ ∃ t, d.lastScaleDown = some t ∧ 600000 < now - t) := by
    have h1 : scaleDownCooldown < now := by
      show (600000 : ℤ) < now
      omega
    exact cooldownOk_iff _ _ _ h1
  have hhalf : cpuThreshold / 2 = (35 : ℚ) := by norm_num [cpuThreshold]
  refine ⟨?_, ?_, ?_, ?_⟩
  · have hfun : (fun (r : Replica) =>
        match r.metrics with
        | some m => m.cpuUsage
        | none => (0 : ℚ)) =
        (fun r => (r.metrics.map Metrics.cpuUsage).getD 0) := by
      funext r
      cases hm : r.metrics <;> simp [hm]
    by_cases h0 : (rs.filter (fun r => r.status == "active")).length = 0
    · simp [avgCpuLoad, h0]
    · simp [avgCpuLoad, h0, Nat.pos_of_ne_zero h0, hfun]
  · simp only [checkAndScaleDecision]
    split_ifs with hc1 hc2
    · exact iff_of_true rfl ⟨hc1.1, hc1.2.1, hupcd.1 hc1.2.2⟩
    · refine iff_of_false (by simp) ?_
      rintro ⟨ha, hb, hc⟩
      exact hc1 ⟨ha, hb, hupcd.2 hc⟩
    · refine iff_of_false (by simp) ?_
      rintro ⟨ha, hb, hc⟩
      exact hc1 ⟨ha, hb, hupcd.2 hc⟩
  · simp only [checkAndScaleDecision]
    split_ifs with hc1 hc2
    · refine iff_of_false (by simp) ?_
      rintro ⟨ha, _, _⟩
      have h70 : (70 : ℚ) < avgCpuLoad rs := hc1.1
      linarith
    · refine iff_of_true rfl ?_
      refine ⟨?_, hc2.2.1, hdncd.1 hc2.2.2⟩
      have := hc2.1
      rw [hhalf] at this
      exact this
    · refine iff_of_false (by simp) ?_
      rintro ⟨ha, hb, hc⟩
      refine hc2 ⟨?_, hb, hdncd.2 hc⟩
      rw [hhalf]
      exact ha
  · rintro ⟨h1, h2⟩
    rw [h1] at h2
    cases h2

theorem scaling_decision_iff_witness :
    (600000 < (1000000 : ℤ)) ∧
      checkAndScaleDecision dOne [repHot1, repHot2] 1000000 = ScaleAction.up :=
  ⟨by decide,
    ((scaling_decision_iff dOne [repHot1, repHot2] 1000000 (by decide)).2.1).mpr
      ⟨by norm_num [avgCpuLoad, repHot1, repHot2], by decide, Or.inl rfl⟩⟩

/-- **C2.** At the scale-up fixture, `scaleUp` does pick worker 1,
persist a `pending` Replica with `replicaNumber = |assignments|+1 = 2`,
append the assignment and stamp `lastScaleUp`, but the message it sends
is a `deploymentTask` event carrying `deploymentId`, `replicaId`,
`githubRepo` and `deploymentTime` — not the `deployRepository` protocol
message with `deploymentDir` and `repoUrl` that the claim (and the
worker agent, which has no `deploymentTask` handler) expects. -/
theorem scaleUp_sends_deploymentTask :
    (scaleUp stUp dOne 1000 "T").2 =
      [⟨"sock1", Payload.deploymentTask 1 2 "acme/app" "T"⟩]
    ∧ kvGet (scaleUp stUp dOne 1000 "T").1.replicas 8 =
        some ⟨8, 1, "pending", 2, none, none⟩
    ∧ kvGet (scaleUp stUp dOne 1000 "T").1.deployments 1 =
        some { dOne with lastScaleUp := some 1000, workers := [⟨1, 1, "active"⟩, ⟨1, 2, "pending"⟩] }
    ∧ (∀ dir url rid did tm,
        Payload.deploymentTask 1 2 "acme/app" "T" ≠
          Payload.deployRepository dir url rid did tm) := by
  refine ⟨by decide, by decide, by decide, ?_⟩
  intro dir url rid did tm h
  cases h

/-- **C3.** At the scale-down fixture, `scaleDown` pops the tail
assignment, messages its worker and stamps `lastScaleDown`, but the
Replica entity of deployment 1 with `replicaNumber = 2` (opaque id 6)
is *not* deleted: the code deletes the key `replica:2` — the replica
number used as an opaque id — destroying the replica of deployment 9
instead, and the `SREM` on the opaque-id set is a no-op. -/
theorem scaleDown_deletes_wrong_replica :
    (scaleDown stDown dTwo 1000).2 = [⟨"sock1", Payload.removeReplica 1 2⟩]
    ∧ kvGet (scaleDown stDown dTwo 1000).1.deployments 1 =
        some { dTwo with lastScaleDown := some 1000, workers := [⟨1, 1, "active"⟩] }
    ∧ kvGet (scaleDown stDown dTwo 1000).1.replicas 6 = some rep6
    ∧ kvGet (scaleDown stDown dTwo 1000).1.depReplicas 1 = some [5, 6]
    ∧ kvGet (scaleDown stDown dTwo 1000).1.replicas 2 = none := by
  refine ⟨by decide, by decide, by decide, by decide, by decide⟩

/-- **C4.** Two `registerWorker` events for the same hostname leave two
Worker records with that hostname in the store: the Redis orchestrator
allocates a fresh id and persists, but never purges the prior record
with the same hostname as the claim requires. -/
theorem registerWorker_keeps_duplicate_hostname :
    ((runWEvents emptyStore
        [WEvent.reg "s1" "host-a" 100, WEvent.reg "s2" "host-a" 200]).workers.filter
      (fun p => p.2.hostname == "host-a")).length = 2
    ∧ kvGet (runWEvents emptyStore
        [WEvent.reg "s1" "host-a" 100, WEvent.reg "s2" "host-a" 200]).workers 1 =
      some ⟨1, "host-a", "s1", "active", 100, none⟩
    ∧ kvGet (runWEvents emptyStore
        [WEvent.reg "s1" "host-a" 100, WEvent.reg "s2" "host-a" 200]).workers 2 =
      some ⟨2, "host-a", "s2", "active", 200, none⟩ := by
  refine ⟨by decide, by decide, by decide⟩

/-- **C7.** On a `deploymentStatus` event for deployment 1 with wire
`replicaId = 1`, the assignment matched by replica number is updated as
the claim says, but the Replica entity of deployment 1 with
`replicaNumber = 1` (opaque id 5) is left untouched, while the record
at key `replica:1` — a replica of the unrelated deployment 2 — gets its
status and metrics overwritten. -/
theorem deploymentStatus_updates_wrong_replica :
    kvGet (deploymentStatusHandler stStatus 1 1 "active" (some ⟨50, 40⟩)).deployments 1 =
      some { dPend with workers := [⟨1, 1, "active"⟩] }
    ∧ kvGet (deploymentStatusHandler stStatus 1 1 "active" (some ⟨50, 40⟩)).replicas 5 =
      some rep5p
    ∧ kvGet (deploymentStatusHandler stStatus 1 1 "active" (some ⟨50, 40⟩)).replicas 1 =
      some ⟨1, 2, "active", 3, some ⟨50, 40⟩, some 0⟩ := by
  refine ⟨by decide, by decide, by decide⟩

/-- **C10.** If no stored worker is `active` with CPU below 80%, the
attempted scale-up leaves the store unchanged and emits nothing — no
Replica is created, no assignment is appended and `lastScaleUp` keeps
its prior (stored) value, so the condition is re-examined unchanged on
a later tick.  This covers both source paths: the placement scan
returning null (throw, caught) and the scan raising a `TypeError` on
an active worker without a reported load (also caught), each before
any write. -/
theorem scaleUp_no_available_worker (st : Store) (d : Deployment)
    (now : ℤ) (nowIso : String)
    (h : ∀ w ∈ storedWorkers st,
      ¬(w.status = "active" ∧ ∃ l, w.currentLoad = some l ∧ l.cpuUsage < 80)) :
    scaleUp st d now nowIso = (st, []) := by
  have hnone : ∀ (l : List Worker),
      (∀ w ∈ l,
        ¬(w.status = "active" ∧ ∃ ld, w.currentLoad = some ld ∧ ld.cpuUsage < 80)) →
      ∀ w0, findFirstAvailable l ≠ Except.ok (some w0) := by
    intro l
    induction l with
    | nil =>
      intro _ w0 hcon
      simp [findFirstAvailable] at hcon
    | cons w ws ih =>
      intro hl w0 hcon
      have htail : ∀ x ∈ ws,
          ¬(x.status = "active" ∧ ∃ ld, x.currentLoad = some ld ∧ ld.cpuUsage < 80) :=
        fun x hx => hl x (List.mem_cons_of_mem w hx)
      by_cases hst : w.status = "active"
      · rcases hld : w.currentLoad with _ | ld
        · simp [findFirstAvailable, availableFilter, hst, hld] at hcon
        · have hge : ¬ ld.cpuUsage < 80 := by
            intro hlt
            exact hl w (List.mem_cons_self w ws) ⟨hst, ld, hld, hlt⟩
          have hdec : decide (ld.cpuUsage < 80) = false := decide_eq_false hge
          simp [findFirstAvailable, availableFilter, hst, hld, hdec] at hcon
          exact ih htail w0 hcon
      · have hbe : (w.status == "active") = false := by
          simp [hst]
        simp [findFirstAvailable, availableFilter, hbe] at hcon
        exact ih htail w0 hcon
  rcases hfind : findAvailableWorker st with e | o
  · unfold scaleUp
    rw [hfind]
  · cases o with
    | none =>
      unfold scaleUp
      rw [hfind]
    | some w =>
      unfold findAvailableWorker at hfind
      exact absurd hfind (hnone (storedWorkers st) h w)

theorem scaleUp_no_available_worker_witness :
    (∀ w ∈ storedWorkers stBusy,
      ¬(w.status = "active" ∧ ∃ l, w.currentLoad = some l ∧ l.cpuUsage < 80))
    ∧ scaleUp stBusy dOne 1000 "T" = (stBusy, []) := by
  have hyp : ∀ w ∈ storedWorkers stBusy,
      ¬(w.status = "active" ∧ ∃ l, w.currentLoad = some l ∧ l.cpuUsage < 80) := by
    intro w hw
    have hsw : storedWorkers stBusy = [wBusy] := rfl
    rw [hsw] at hw
    have hw2 : w = wBusy := by simpa using hw
    subst hw2
    rintro ⟨-, l, hl, hcpu⟩
    have h0 : wBusy.currentLoad = some ⟨95, 20, 3⟩ := rfl
    rw [h0] at hl
    injection hl with hl2
    rw [← hl2] at hcpu
    norm_num at hcpu
  exact ⟨hyp, scaleUp_no_available_worker stBusy dOne 1000 "T" hyp⟩

theorem availableFilter_of_load {w : Worker}
    (hw : w.currentLoad.isSome = true) :
    availableFilter w = Except.ok (placementPred w) := by
  rcases hld : w.currentLoad with _ | ld
  · rw [hld] at hw
    simp at hw
  · by_cases hst : w.status = "active"
    · simp [availableFilter, placementPred, hst, hld]
    · have hbe : (w.status == "active") = false := by simp [hst]
      simp [availableFilter, placementPred, hbe]

theorem filterAvailable_of_loads :
    ∀ (l : List Worker), (∀ w ∈ l, w.currentLoad.isSome = true) →
      filterAvailable l = Except.ok (l.filter placementPred) := by
  intro l
  induction l with
  | nil =>
    intro _
    rfl
  | cons w ws ih =>
    intro hl
    have hw := availableFilter_of_load (hl w (List.mem_cons_self w ws))
    have htail := ih (fun x hx => hl x (List.mem_cons_of_mem w hx))
    simp only [filterAvailable, hw, htail]
    rw [List.filter_cons]

/-- **C5 (amended).** When every stored worker has reported a load and
fewer of them satisfy the placement filter (status `active` and
reported `cpuUsage < 80`) than the requested `minReplicas`, the deploy
call fails with `InsufficientWorkers`, emits nothing, and leaves the
store exactly as it was: no Deployment and no Replica entity is
persisted.  The load proviso is forced by the source: on an active
worker that never reported, the filter raises a `TypeError` instead
(see the counterexample), still before any write. -/
theorem deployRepository_insufficient (st : Store) (req : DeployRequest)
    (repo : RepoInfo) (now : ℤ) (nowIso : String)
    (hload : ∀ w ∈ storedWorkers st, w.currentLoad.isSome = true)
    (hfew : ((storedWorkers st).filter placementPred).length <
      req.minReplicas.getD 1) :
    deployRepository st req (some repo) now nowIso =
      ⟨st, [], Except.error (DeployErr.insufficientWorkers
        (req.minReplicas.getD 1)
        ((storedWorkers st).filter placementPred).length)⟩ := by
  simp only [deployRepository, deployResolved,
    filterAvailable_of_loads (storedWorkers st) hload]
  rw [if_pos hfew]

theorem deployRepository_insufficient_witness :
    (∀ w ∈ storedWorkers stBusy, w.currentLoad.isSome = true)
    ∧ (((storedWorkers stBusy).filter placementPred).length < 1)
    ∧ deployRepository stBusy ⟨"acme/app", "kaz", none, none⟩ (some repoA)
        0 "T" =
      ⟨stBusy, [], Except.error (DeployErr.insufficientWorkers 1 0)⟩ :=
  ⟨by decide, by decide,
    deployRepository_insufficient stBusy ⟨"acme/app", "kaz", none, none⟩
      repoA 0 "T" (by decide) (by decide)⟩

/-- **C5 counterexample.** At the store whose only worker is `active`
but has never reported a load, zero workers satisfy the placement
filter — fewer than the default `minReplicas = 1` — yet the deploy call
fails with the filter `TypeError`, which is not `InsufficientWorkers`
(the store is still left unchanged and nothing is emitted). -/
theorem deployRepository_typeError_not_insufficient :
    (((storedWorkers stNoLoad).filter placementPred).length < 1)
    ∧ deployRepository stNoLoad ⟨"acme/app", "kaz", none, none⟩ (some repoA)
        0 "T" =
      ⟨stNoLoad, [], Except.error DeployErr.typeError⟩
    ∧ ∀ required available : ℕ,
        (Except.error DeployErr.typeError : Except DeployErr Deployment) ≠
          Except.error (DeployErr.insufficientWorkers required available) := by
  refine ⟨by decide, by decide, ?_⟩
  intro required available hcon
  injection hcon with h
  simp at h

theorem distLoop_emits (st : Store) (d : Deployment) (repo : RepoInfo)
    (nowIso : String) :
    ∀ (l : List Assignment) (acc : List Msg),
      distLoop st d repo nowIso l acc = acc ++ emittedMsgs st d repo nowIso l := by
  intro l
  induction l with
  | nil =>
    intro acc
    simp [distLoop, emittedMsgs]
  | cons a rest ih =>
    intro acc
    cases hk : kvGet st.workers a.workerId with
    | none =>
      simp only [distLoop, hk]
      rw [ih acc]
      simp [emittedMsgs, List.filterMap_cons, hk]
    | some w =>
      simp only [distLoop, hk]
      rw [ih (acc ++ [dispatchMsg d repo nowIso a w])]
      simp [emittedMsgs, List.filterMap_cons, hk]

/-- **C6.** `distributeToWorkers` emits the `deployRepository` message
for every assignment whose worker record exists (a missing record is
skipped) and then unconditionally saves the deployment as `active` and
returns it.  A socket.io room emit never raises for a gone socket, so
the `WorkerUnreachable → failed` transition the claim describes does
not exist in the code: the deployment becomes active whether or not
any routing handle is still live, and no dispatch error is surfaced. -/
theorem distributeToWorkers_always_active (st : Store) (d : Deployment)
    (repo : RepoInfo) (nowIso : String) :
    distributeToWorkers st d repo nowIso =
      ⟨st.setDeployment d.id { d with status := "active" },
        emittedMsgs st d repo nowIso d.workers,
        Except.ok { d with status := "active" }⟩ := by
  unfold distributeToWorkers
  rw [distLoop_emits st d repo nowIso d.workers []]
  simp

/-- **C9.** A deploy request that omits `minReplicas` behaves exactly
as one supplying `1`, one that omits `maxReplicas` behaves exactly as
one supplying `3`, and supplied values are the ones the resolved
pipeline runs with. -/
theorem deployRepository_defaults (st : Store) (gh user : String)
    (mn mx : Option ℕ) (repoInfo : Option RepoInfo) (now : ℤ)
    (nowIso : String) :
    (deployRepository st ⟨gh, user, none, mx⟩ repoInfo now nowIso =
      deployRepository st ⟨gh, user, some 1, mx⟩ repoInfo now nowIso)
    ∧ (deployRepository st ⟨gh, user, mn, none⟩ repoInfo now nowIso =
      deployRepository st ⟨gh, user, mn, some 3⟩ repoInfo now nowIso)
    ∧ (∀ a b : ℕ,
      deployRepository st ⟨gh, user, some a, some b⟩ repoInfo now nowIso =
        deployResolved st gh user a b repoInfo now nowIso) :=
  ⟨rfl, rfl, fun _ _ => rfl⟩
